import Mathlib

/-!
Verification of the student toolkit server against its specification.

The development shallowly embeds three parts of the TypeScript source:

* the focus-session state machine of
  `src/app/modules/subject/services/study-session.service.ts`
  (`updateFocusSession`, `startFocusSession`, `pauseFocusSession`,
  `resumeFocusSession`, `completeFocusSession`, `cancelFocusSession`);
* the habit streak tracker of
  `src/app/modules/analytics/analytics.controller.ts`
  (`logHabitSession`, `updateHabitProgress`);
* the performance trend analyzer of the same controller
  (`analyzeTrend`, `calculateConfidence`, `calculateProjectedPerformance`).

Timestamps are modelled as integer epoch milliseconds, scores as rationals.
JavaScript `Math.round` is modelled as `jround` below.  Database rows are
modelled as records; a `findFirst`/`findUnique` lookup result is modelled as
an `Option` argument, and a thrown `ApiError` as the `Except.error` case.
-/

namespace StudentToolkit

/-- Decidable equality of `Except` results, for evaluating concrete runs. -/
instance exceptDecEq {ε α : Type} [DecidableEq ε] [DecidableEq α] :
    DecidableEq (Except ε α) := fun x y =>
  match x, y with
  | .ok a, .ok b =>
    if h : a = b then isTrue (by rw [h]) else isFalse (by simp [h])
  | .error e, .error f =>
    if h : e = f then isTrue (by rw [h]) else isFalse (by simp [h])
  | .ok _, .error _ => isFalse (by simp)
  | .error _, .ok _ => isFalse (by simp)

/-- JavaScript `Math.round`: round half toward positive infinity. -/
def jround (q : ℚ) : ℤ := (q + 1/2).floor

/-- `Math.round(ms / (1000 * 60))`: milliseconds to whole minutes. -/
def msToMinutes (ms : ℤ) : ℤ := jround ((ms : ℚ) / 60000)

/-- The `SessionStatus` enum of `subject.types.ts`. -/
inductive SessionStatus
  | ACTIVE
  | PAUSED
  | COMPLETED
  | CANCELLED
deriving DecidableEq, Repr

/-- `ApiError(statusCode, message)` as thrown by the services. -/
structure ApiError where
  statusCode : ℕ
  message : String
deriving DecidableEq, Repr

/-- The persisted fields of a `focusSession` row that the session actions read
or write.  `pauseDuration` is the accumulated pause time in minutes
(`null` until the first resume; the code reads it as `pauseDuration || 0`). -/
structure FocusSession where
  status : SessionStatus
  startTime : Option ℤ
  endTime : Option ℤ
  pausedAt : Option ℤ
  pauseDuration : Option ℤ
  actualDuration : Option ℤ
deriving DecidableEq, Repr

/-- The fields of `IFocusSessionUpdate` that the complete/cancel actions send.
`none` models an absent (`undefined`) field, which Prisma leaves unchanged. -/
structure FocusSessionUpdate where
  status : Option SessionStatus
  endTime : Option ℤ
  pausedAt : Option ℤ
deriving DecidableEq, Repr

/-- `updateFocusSession` of `study-session.service.ts`.  The `found` argument
is the result of the `findFirst` lookup by session id and user id; a missing
row throws 404.  The update spreads the payload over the row and, when the
payload sets status `COMPLETED` on a row with no stored `endTime`, stamps a
fresh end time and derives
`actualDuration = Math.round(totalMs / 60000) - (pauseDuration || 0)`. -/
def updateFocusSession (now : ℤ) (payload : FocusSessionUpdate)
    (found : Option FocusSession) : Except ApiError FocusSession :=
  match found with
  | none => .error ⟨404, "Focus session not found"⟩
  | some session =>
    let base : FocusSession :=
      { session with
        status := payload.status.getD session.status
        endTime := match payload.endTime with
          | some t => some t
          | none => session.endTime
        pausedAt := match payload.pausedAt with
          | some t => some t
          | none => session.pausedAt }
    if payload.status = some SessionStatus.COMPLETED ∧ session.endTime = none then
      match session.startTime with
      | some t0 =>
        .ok { base with
          endTime := some now
          actualDuration :=
            some (msToMinutes (now - t0) - session.pauseDuration.getD 0) }
      | none => .ok { base with endTime := some now }
    else
      .ok base

/-- `startFocusSession`: only `ACTIVE` or `PAUSED` rows may be started; sets
`startTime = startTime || now`, status `ACTIVE`, and clears `pausedAt` when
resuming from pause. -/
def startFocusSession (now : ℤ) (found : Option FocusSession) :
    Except ApiError FocusSession :=
  match found with
  | none => .error ⟨404, "Focus session not found"⟩
  | some session =>
    if session.status ≠ SessionStatus.ACTIVE ∧ session.status ≠ SessionStatus.PAUSED then
      .error ⟨400, "Session cannot be started"⟩
    else
      let s1 : FocusSession :=
        { session with
          status := SessionStatus.ACTIVE
          startTime := some (session.startTime.getD now) }
      if session.status = SessionStatus.PAUSED then
        .ok { s1 with pausedAt := none }
      else
        .ok s1

/-- `pauseFocusSession`: only `ACTIVE` rows may be paused. -/
def pauseFocusSession (now : ℤ) (found : Option FocusSession) :
    Except ApiError FocusSession :=
  match found with
  | none => .error ⟨404, "Focus session not found"⟩
  | some session =>
    if session.status ≠ SessionStatus.ACTIVE then
      .error ⟨400, "Only active sessions can be paused"⟩
    else
      .ok { session with status := SessionStatus.PAUSED, pausedAt := some now }

/-- `resumeFocusSession`: only `PAUSED` rows may be resumed; adds the rounded
open pause interval to `pauseDuration` and clears `pausedAt`. -/
def resumeFocusSession (now : ℤ) (found : Option FocusSession) :
    Except ApiError FocusSession :=
  match found with
  | none => .error ⟨404, "Focus session not found"⟩
  | some session =>
    if session.status ≠ SessionStatus.PAUSED then
      .error ⟨400, "Only paused sessions can be resumed"⟩
    else
      let pd0 := session.pauseDuration.getD 0
      let pd := match session.pausedAt with
        | some p => pd0 + msToMinutes (now - p)
        | none => pd0
      .ok { session with
        status := SessionStatus.ACTIVE
        pausedAt := none
        pauseDuration := some pd }

/-- `completeFocusSession`: delegates to `updateFocusSession` with payload
`{ status: COMPLETED, endTime: now }`. -/
def completeFocusSession (now : ℤ) (found : Option FocusSession) :
    Except ApiError FocusSession :=
  updateFocusSession now ⟨some SessionStatus.COMPLETED, some now, none⟩ found

/-- `cancelFocusSession`: delegates to `updateFocusSession` with payload
`{ status: CANCELLED, endTime: now }`. -/
def cancelFocusSession (now : ℤ) (found : Option FocusSession) :
    Except ApiError FocusSession :=
  updateFocusSession now ⟨some SessionStatus.CANCELLED, some now, none⟩ found

/-- A timed pause or resume call, for reasoning about call sequences. -/
inductive FocusAction
  | pause (now : ℤ)
  | resume (now : ℤ)
deriving DecidableEq, Repr

/-- Apply one pause/resume call to a session row. -/
def applyFocusAction (s : FocusSession) : FocusAction → Except ApiError FocusSession
  | .pause t => pauseFocusSession t (some s)
  | .resume t => resumeFocusSession t (some s)

/-- Apply a sequence of pause/resume calls, stopping at the first error,
as the controller awaits each call in turn. -/
def runFocusActions (s : FocusSession) : List FocusAction → Except ApiError FocusSession
  | [] => .ok s
  | a :: rest =>
    match applyFocusAction s a with
    | .ok s1 => runFocusActions s1 rest
    | .error e => .error e

/-! Concrete sessions used to evaluate the state machine. -/

/-- A session started at epoch time 0, never paused. -/
def sessionStarted : FocusSession := ⟨.ACTIVE, some 0, none, none, none, none⟩

/-- The session of Scenario A after pausing at minute 10 and resuming at
minute 15: five minutes of accumulated pause. -/
def sessionAfterCycle : FocusSession := ⟨.ACTIVE, some 0, none, none, some 5, none⟩

/-- A session that completed at minute 20 with no pauses. -/
def sessionCompleted : FocusSession :=
  ⟨.COMPLETED, some 0, some 1200000, none, some 0, some 20⟩

/-- A session sitting in `PAUSED` since minute 10, with no previously
accumulated pause time. -/
def sessionPausedOpen : FocusSession := ⟨.PAUSED, some 0, none, some 600000, some 0, none⟩

/-! ## Habit streak tracker

Embedding of `logHabitSession` and `updateHabitProgress` from
`analytics.controller.ts`.  Entry dates are modelled as integer day numbers
(the code normalizes each date to midnight, so one integer per calendar
day); `date₁ - date₂` is then the number of calendar days between two
entries. -/

/-- A `focusHabitSession` row: one logged day of a habit. -/
structure HabitSession where
  date : ℤ
  completed : Bool
  effectiveness : Option ℚ
  notes : Option String
  plannedSessions : ℤ
  completedSessions : ℤ
  userId : String
deriving DecidableEq, Repr

/-- A `focusHabit` row together with its `habitSessions` relation. -/
structure FocusHabit where
  userId : String
  sessionsPerDay : ℤ
  targetDays : ℤ
  currentStreak : ℤ
  longestStreak : ℤ
  completedDays : ℤ
  totalSessions : ℤ
  averageEffectiveness : Option ℚ
  completedDate : Option ℤ
  isActive : Bool
  habitSessions : List HabitSession
deriving DecidableEq, Repr

/-- `habit.habitSessions.sort((a, b) => b.date - a.date)`: most recent day
first. -/
def sortByDateDesc (l : List HabitSession) : List HabitSession :=
  List.insertionSort (fun a b => b.date ≤ a.date) l

/-- `updateHabitProgress` of `analytics.controller.ts`: recomputes the
derived habit columns from the entry rows.  The current streak counts the
leading `completed` entries of the date-descending sort; the longest streak
is the max of the stored one and the current streak.  `averageEffectiveness`
stays unchanged when no completed entry has a truthy effectiveness (the code
sends `undefined`, which the ORM skips). -/
def updateHabitProgress (now : ℤ) (habit : FocusHabit) : FocusHabit :=
  let completedSessions := habit.habitSessions.filter (·.completed)
  let completedDays : ℤ := completedSessions.length
  let sortedSessions := sortByDateDesc habit.habitSessions
  let currentStreak : ℤ := (sortedSessions.takeWhile (·.completed)).length
  let effectiveSessions :=
    completedSessions.filter (fun s => decide (s.effectiveness.getD 0 ≠ 0))
  let averageEffectiveness : Option ℚ :=
    if effectiveSessions.length > 0 then
      some ((effectiveSessions.map (fun s => s.effectiveness.getD 0)).sum /
        effectiveSessions.length)
    else
      habit.averageEffectiveness
  let isCompleted : Bool := decide (completedDays ≥ habit.targetDays)
  let completedDate : Option ℤ :=
    if isCompleted ∧ habit.completedDate = none then some now
    else habit.completedDate
  { habit with
    completedDays := completedDays
    currentStreak := currentStreak
    longestStreak := max habit.longestStreak currentStreak
    totalSessions := habit.habitSessions.foldl (fun sum s => sum + s.completedSessions) 0
    averageEffectiveness := averageEffectiveness
    completedDate := completedDate
    isActive := !isCompleted }

/-- The argument record of `logHabitSession` (`sessionData`), with the date
already normalized to a day number. -/
structure HabitLogData where
  date : ℤ
  completed : Bool
  effectiveness : Option ℚ
  notes : Option String
  completedSessions : ℤ
deriving DecidableEq, Repr

/-- `logHabitSession` of `analytics.controller.ts`.  `habit?` is the
`findUnique` result for the habit id; the entry lookup keyed on
`(habitId, date)` can only return a row when the habit exists, so it is
modelled on the habit's own session list.  An existing entry for the day is
updated in place; otherwise the code loads the habit — throwing 404 when the
id is unknown — and inserts a new row carrying the caller's user id.  No
comparison of the caller with the habit's owner is performed anywhere.
Afterwards `updateHabitProgress` recomputes the habit columns; the updated
habit row is returned. -/
def logHabitSession (now : ℤ) (userId : String) (habit? : Option FocusHabit)
    (d : HabitLogData) : Except ApiError FocusHabit :=
  match habit? with
  | some habit =>
    match habit.habitSessions.find? (fun s => decide (s.date = d.date)) with
    | some _ =>
      let sessions := habit.habitSessions.map (fun s =>
        if s.date = d.date then
          { s with
            completed := d.completed
            effectiveness := d.effectiveness
            notes := d.notes
            completedSessions := d.completedSessions }
        else s)
      .ok (updateHabitProgress now { habit with habitSessions := sessions })
    | none =>
      let newSession : HabitSession :=
        { date := d.date
          completed := d.completed
          effectiveness := d.effectiveness
          notes := d.notes
          plannedSessions := habit.sessionsPerDay
          completedSessions := d.completedSessions
          userId := userId }
      .ok (updateHabitProgress now
        { habit with habitSessions := habit.habitSessions ++ [newSession] })
  | none => .error ⟨404, "Focus habit not found"⟩

/-- Helper for the spec-side streak: scan the tail while each entry is
completed and dated exactly one day before the previously scanned one. -/
def specStreakTail (prev : ℤ) : List HabitSession → ℕ
  | [] => 0
  | e :: rest =>
    if prev - e.date = 1 ∧ e.completed then specStreakTail e.date rest + 1 else 0

/-- Spec-side definition, following the specification's words for claim C5:
the current streak of a date-descending entry list counts consecutive
most-recent days where each entry is exactly one calendar day before the
previous one scanned and `completed = true`; a missing day breaks the scan
exactly like a `completed = false` entry. -/
def specCurrentStreak : List HabitSession → ℕ
  | [] => 0
  | e :: rest => if e.completed then specStreakTail e.date rest + 1 else 0

/-! Concrete habits used to evaluate the streak tracker. -/

/-- A habit owned by user `alice` with a single completed entry at day 0. -/
def habitOneDay : FocusHabit :=
  ⟨"alice", 1, 21, 1, 1, 1, 1, none, none, true,
    [⟨0, true, none, none, 1, 1, "alice"⟩]⟩

/-- A completed log entry for day 2, leaving day 1 as a calendar gap. -/
def logGapDay : HabitLogData := ⟨2, true, none, none, 1⟩

/-- The habit stored after `alice` logs day 2 on `habitOneDay`. -/
def habitAfterGap : FocusHabit :=
  ⟨"alice", 1, 21, 2, 2, 2, 2, none, none, true,
    [⟨0, true, none, none, 1, 1, "alice"⟩, ⟨2, true, none, none, 1, 1, "alice"⟩]⟩

/-- The habit stored after `bob` — not the owner — logs day 2 on `alice`'s
`habitOneDay`: the call succeeds and the new entry carries `bob`'s id. -/
def habitAfterGapBob : FocusHabit :=
  ⟨"alice", 1, 21, 2, 2, 2, 2, none, none, true,
    [⟨0, true, none, none, 1, 1, "alice"⟩, ⟨2, true, none, none, 1, 1, "bob"⟩]⟩

/-! ## Performance trend analyzer

Embedding of `analyzeTrend`, `calculateConfidence` and
`calculateProjectedPerformance` from `analytics.controller.ts`.  Scores are
rationals; the regression index is the 0-based list position. -/

/-- A performance sample (only the score enters the regression; the index is
the list position). -/
structure PerformancePoint where
  date : ℤ
  score : ℚ
deriving DecidableEq, Repr

/-- The three trend labels of `analyzeTrend`. -/
inductive Trend
  | improving
  | stable
  | declining
deriving DecidableEq, Repr

/-- The record returned by `analyzeTrend`: the label, the rounded weekly
improvement rate, and the rounded confidence percentage. -/
structure TrendAnalysis where
  trend : Trend
  improvementRate : ℚ
  confidence : ℤ
deriving DecidableEq, Repr

/-- `sumX` accumulated by `analyzeTrend`: the sum of the 0-based indices. -/
def sumX (points : List PerformancePoint) : ℚ :=
  (points.enum.map (fun p => (p.1 : ℚ))).sum

/-- `sumY`: the sum of the scores. -/
def sumY (points : List PerformancePoint) : ℚ :=
  (points.map (·.score)).sum

/-- `sumXY`: the sum of index times score. -/
def sumXY (points : List PerformancePoint) : ℚ :=
  (points.enum.map (fun p => (p.1 : ℚ) * p.2.score)).sum

/-- `sumXX`: the sum of squared indices. -/
def sumXX (points : List PerformancePoint) : ℚ :=
  (points.enum.map (fun p => (p.1 : ℚ) * (p.1 : ℚ))).sum

/-- The regression slope computed by `analyzeTrend`:
`(n * sumXY - sumX * sumY) / (n * sumXX - sumX * sumX)`. -/
def slopeOf (points : List PerformancePoint) : ℚ :=
  ((points.length : ℚ) * sumXY points - sumX points * sumY points) /
    ((points.length : ℚ) * sumXX points - sumX points * sumX points)

/-- `calculateConfidence`: fewer than 3 points yields the fixed 30;
otherwise the R-squared of the fit, scaled to a percentage and clamped to
`[30, 95]` (an all-equal sample has `ssTot = 0` and R-squared forced to
0). -/
def calculateConfidence (points : List PerformancePoint) (slope : ℚ) : ℚ :=
  if points.length < 3 then 30
  else
    let n : ℚ := points.length
    let avgY : ℚ := sumY points / n
    let ssRes : ℚ := (points.enum.map (fun p =>
      (p.2.score - (slope * p.1 + (avgY - slope * (n - 1) / 2))) ^ 2)).sum
    let ssTot : ℚ := (points.map (fun p => (p.score - avgY) ^ 2)).sum
    let rSquared : ℚ := if ssTot = 0 then 0 else 1 - ssRes / ssTot
    max 30 (min 95 (rSquared * 100))

/-- `analyzeTrend`: fewer than 2 points is reported as stable with zero
confidence; otherwise the slope is converted to a weekly improvement rate
(`slope * 7`), classified (strictly within one half of zero is stable,
positive is improving, otherwise declining), and the rate and confidence
are rounded for the report. -/
def analyzeTrend (points : List PerformancePoint) : TrendAnalysis :=
  if points.length < 2 then ⟨.stable, 0, 0⟩
  else
    let slope := slopeOf points
    let confidence := calculateConfidence points slope
    let improvementRate := slope * 7
    let trend : Trend :=
      if |improvementRate| < 1/2 then .stable
      else if improvementRate > 0 then .improving
      else .declining
    ⟨trend, (jround (improvementRate * 100) : ℚ) / 100, jround confidence⟩

/-- `calculateProjectedPerformance`: the last score plus the
confidence-weighted improvement rate, clamped to `[0, 100]`; 0 when there
are no points. -/
def calculateProjectedPerformance (points : List PerformancePoint)
    (ta : TrendAnalysis) : ℚ :=
  match points.getLast? with
  | none => 0
  | some last =>
    max 0 (min 100 (last.score + ta.improvementRate * ((ta.confidence : ℚ) / 100)))

/-- Modelled from the spec: the ordinary-least-squares slope of the scores
over the 0-based sample index, in mean-deviation form, for comparison with
the slope formula the code accumulates. -/
def olsSlope (points : List PerformancePoint) : ℚ :=
  let xbar := sumX points / (points.length : ℚ)
  let ybar := sumY points / (points.length : ℚ)
  (points.enum.map (fun p => ((p.1 : ℚ) - xbar) * (p.2.score - ybar))).sum /
    (points.enum.map (fun p => ((p.1 : ℚ) - xbar) ^ 2)).sum

/-- The five daily scores of Scenario C. -/
def scenarioCPoints : List PerformancePoint :=
  [⟨0, 50⟩, ⟨1, 55⟩, ⟨2, 60⟩, ⟨3, 65⟩, ⟨4, 70⟩]

/-! ## Theorems -/

/-- `jround` agrees with the mathematical floor of `q + 1/2`. -/
theorem jround_eq (q : ℚ) : jround q = ⌊q + 1/2⌋ := by
  rw [jround, Rat.floor_def', Rat.floor_def]

/-- A successful pause or resume call leaves `startTime` and `endTime`
(and `actualDuration`) untouched. -/
theorem applyFocusAction_fields {s s' : FocusSession} {a : FocusAction}
    (h : applyFocusAction s a = .ok s') :
    s'.startTime = s.startTime ∧ s'.endTime = s.endTime := by
  cases a with
  | pause t =>
    simp only [applyFocusAction, pauseFocusSession] at h
    split at h
    · simp at h
    · injection h with h1
      subst h1
      exact ⟨rfl, rfl⟩
  | resume t =>
    simp only [applyFocusAction, resumeFocusSession] at h
    split at h
    · simp at h
    · injection h with h1
      subst h1
      exact ⟨rfl, rfl⟩

/-- A successful sequence of pause/resume calls leaves `startTime` and
`endTime` untouched. -/
theorem runFocusActions_fields {acts : List FocusAction} {s s' : FocusSession}
    (h : runFocusActions s acts = .ok s') :
    s'.startTime = s.startTime ∧ s'.endTime = s.endTime := by
  induction acts generalizing s with
  | nil =>
    simp only [runFocusActions] at h
    injection h with h1
    subst h1
    exact ⟨rfl, rfl⟩
  | cons a rest ih =>
    simp only [runFocusActions] at h
    cases ha : applyFocusAction s a with
    | ok s1 =>
      simp only [ha] at h
      obtain ⟨e1, e2⟩ := applyFocusAction_fields ha
      obtain ⟨f1, f2⟩ := ih h
      exact ⟨f1.trans e1, f2.trans e2⟩
    | error e =>
      simp only [ha] at h
      exact Except.noConfusion h

/-- Claim C1: for every started session and every successful sequence of
pause/resume calls ending in a `complete` call, the stored `actualDuration`
equals `Math.round((endTime - startTime) / 60000)` minus the stored
accumulated pause minutes, however many pause/resume cycles occurred; and in
the concrete Scenario A (start at 0, pause at minute 10, resume at minute 15,
complete at minute 20) the accumulated pause is 5 and `actualDuration` 15. -/
theorem pause_accounting
    (s0 : FocusSession) (acts : List FocusAction) (s1 s2 : FocusSession)
    (t0 tEnd : ℤ)
    (hstart : s0.startTime = some t0) (hend : s0.endTime = none)
    (hrun : runFocusActions s0 acts = .ok s1)
    (hcomp : completeFocusSession tEnd (some s1) = .ok s2) :
    (s2.endTime = some tEnd ∧
      s2.pauseDuration = s1.pauseDuration ∧
      s2.actualDuration =
        some (msToMinutes (tEnd - t0) - s2.pauseDuration.getD 0)) ∧
    (runFocusActions sessionStarted [.pause 600000, .resume 900000] =
        .ok sessionAfterCycle ∧
      completeFocusSession 1200000 (some sessionAfterCycle) =
        .ok ⟨.COMPLETED, some 0, some 1200000, none, some 5, some 15⟩) := by
  obtain ⟨e1, e2⟩ := runFocusActions_fields hrun
  have hs1start : s1.startTime = some t0 := e1.trans hstart
  have hs1end : s1.endTime = none := e2.trans hend
  simp only [completeFocusSession, updateFocusSession, hs1end, hs1start] at hcomp
  simp only [and_true, if_pos rfl] at hcomp
  injection hcomp with h2
  subst h2
  refine ⟨⟨rfl, rfl, rfl⟩, ?_, ?_⟩
  · norm_num [runFocusActions, applyFocusAction, pauseFocusSession,
      resumeFocusSession, sessionStarted, sessionAfterCycle, msToMinutes, jround_eq]
  · norm_num [completeFocusSession, updateFocusSession, sessionAfterCycle,
      msToMinutes, jround_eq]

/-- Witness for C1: the general pause-accounting theorem applied to the
concrete Scenario A run. -/
theorem pause_accounting_witness :
    (((⟨.COMPLETED, some 0, some 1200000, none, some 5, some 15⟩ : FocusSession).endTime =
        some 1200000 ∧
      (⟨.COMPLETED, some 0, some 1200000, none, some 5, some 15⟩ : FocusSession).pauseDuration =
        sessionAfterCycle.pauseDuration ∧
      (⟨.COMPLETED, some 0, some 1200000, none, some 5, some 15⟩ : FocusSession).actualDuration =
        some (msToMinutes (1200000 - 0) -
          (⟨.COMPLETED, some 0, some 1200000, none, some 5, some 15⟩ :
            FocusSession).pauseDuration.getD 0)) ∧
    (runFocusActions sessionStarted [.pause 600000, .resume 900000] =
        .ok sessionAfterCycle ∧
      completeFocusSession 1200000 (some sessionAfterCycle) =
        .ok ⟨.COMPLETED, some 0, some 1200000, none, some 5, some 15⟩)) :=
  pause_accounting sessionStarted [.pause 600000, .resume 900000]
    sessionAfterCycle ⟨.COMPLETED, some 0, some 1200000, none, some 5, some 15⟩
    0 1200000 rfl rfl
    (by norm_num [runFocusActions, applyFocusAction, pauseFocusSession,
      resumeFocusSession, sessionStarted, sessionAfterCycle, msToMinutes, jround_eq])
    (by norm_num [completeFocusSession, updateFocusSession, sessionAfterCycle,
      msToMinutes, jround_eq])

/-- Counterexample to claim C2: completing the session that has been sitting
in `PAUSED` since minute 10 does NOT first close the open pause interval.
The code stores `actualDuration = 20` (the open 10 pause minutes count as
work) and leaves `pauseDuration = 0` and `pausedAt` set, whereas the claim
requires the open interval to be added first, which would give
`actualDuration = round(20) - (0 + round(10)) = 10`. -/
theorem complete_paused_counterexample :
    completeFocusSession 1200000 (some sessionPausedOpen) =
      .ok ⟨.COMPLETED, some 0, some 1200000, some 600000, some 0, some 20⟩ ∧
    msToMinutes (1200000 - 0) - ((0 : ℤ) + msToMinutes (1200000 - 600000)) = 10 ∧
    (20 : ℤ) ≠ 10 := by
  refine ⟨?_, ?_, by norm_num⟩
  · norm_num [completeFocusSession, updateFocusSession, sessionPausedOpen,
      msToMinutes, jround_eq]
  · norm_num [msToMinutes, jround_eq]

/-- Amended claim C2: if `complete` is called on a `PAUSED` session, the open
pause interval is NOT closed: `pauseDuration` and `pausedAt` are left
unchanged, and `actualDuration` is computed from `endTime - startTime` minus
only the previously accumulated pause minutes. -/
theorem complete_paused_keeps_open_pause
    (now t0 : ℤ) (s : FocusSession)
    (_hp : s.status = .PAUSED) (hstart : s.startTime = some t0)
    (hend : s.endTime = none) :
    completeFocusSession now (some s) =
      .ok { s with
        status := .COMPLETED
        endTime := some now
        actualDuration := some (msToMinutes (now - t0) - s.pauseDuration.getD 0) } := by
  simp [completeFocusSession, updateFocusSession, hend, hstart]

/-- Witness for the amended C2 at the concrete paused session. -/
theorem complete_paused_keeps_open_pause_witness :
    completeFocusSession 1200000 (some sessionPausedOpen) =
      .ok { sessionPausedOpen with
        status := .COMPLETED
        endTime := some 1200000
        actualDuration :=
          some (msToMinutes (1200000 - 0) - sessionPausedOpen.pauseDuration.getD 0) } :=
  complete_paused_keeps_open_pause 1200000 0 sessionPausedOpen rfl rfl rfl

/-- Counterexample to claim C3: `cancel` on a `COMPLETED` session does not
fail with an invalid-transition error; it succeeds, rewrites the status to
`CANCELLED` and moves `endTime`, so the stored state changes. -/
theorem cancel_completed_counterexample :
    cancelFocusSession 1500000 (some sessionCompleted) =
      .ok ⟨.CANCELLED, some 0, some 1500000, none, some 0, some 20⟩ ∧
    (⟨.CANCELLED, some 0, some 1500000, none, some 0, some 20⟩ : FocusSession) ≠
      sessionCompleted := by
  refine ⟨by decide, by decide⟩

/-- Amended claim C3: only `start`, `pause` and `resume` enforce transition
legality (each fails with a 400 error from the wrong state); `complete` and
`cancel` perform no status check at all and succeed from every state,
including the terminal `COMPLETED` and `CANCELLED` states. -/
theorem transition_guards :
    (∀ (now : ℤ) (s : FocusSession), s.status ≠ .ACTIVE →
      pauseFocusSession now (some s) =
        .error ⟨400, "Only active sessions can be paused"⟩) ∧
    (∀ (now : ℤ) (s : FocusSession), s.status ≠ .PAUSED →
      resumeFocusSession now (some s) =
        .error ⟨400, "Only paused sessions can be resumed"⟩) ∧
    (∀ (now : ℤ) (s : FocusSession), s.status = .COMPLETED ∨ s.status = .CANCELLED →
      startFocusSession now (some s) = .error ⟨400, "Session cannot be started"⟩) ∧
    (∀ (now : ℤ) (s : FocusSession), ∃ s',
      completeFocusSession now (some s) = .ok s') ∧
    (∀ (now : ℤ) (s : FocusSession), ∃ s',
      cancelFocusSession now (some s) = .ok s') := by
  refine ⟨?_, ?_, ?_, ?_, ?_⟩
  · intro now s h
    simp only [pauseFocusSession, if_pos h]
  · intro now s h
    simp only [resumeFocusSession, if_pos h]
  · intro now s h
    have hc : s.status ≠ .ACTIVE ∧ s.status ≠ .PAUSED := by
      rcases h with h | h <;> rw [h] <;> exact ⟨by simp, by simp⟩
    simp only [startFocusSession, if_pos hc]
  · intro now s
    simp only [completeFocusSession, updateFocusSession]
    split
    · cases hst : s.startTime <;> simp [hst]
    · exact ⟨_, rfl⟩
  · intro now s
    simp only [cancelFocusSession, updateFocusSession]
    split
    · cases hst : s.startTime <;> simp [hst]
    · exact ⟨_, rfl⟩

/-- Witness for the amended C3, discharged on concrete sessions: pausing a
paused session fails, resuming an active one fails, starting and cancelling
a completed one behave as stated. -/
theorem transition_guards_witness :
    pauseFocusSession 0 (some sessionPausedOpen) =
      .error ⟨400, "Only active sessions can be paused"⟩ ∧
    resumeFocusSession 0 (some sessionStarted) =
      .error ⟨400, "Only paused sessions can be resumed"⟩ ∧
    startFocusSession 0 (some sessionCompleted) =
      .error ⟨400, "Session cannot be started"⟩ ∧
    (∃ s', completeFocusSession 1500000 (some sessionCompleted) = .ok s') ∧
    (∃ s', cancelFocusSession 1500000 (some sessionCompleted) = .ok s') :=
  ⟨transition_guards.1 0 sessionPausedOpen (by decide),
    transition_guards.2.1 0 sessionStarted (by decide),
    transition_guards.2.2.1 0 sessionCompleted (Or.inl rfl),
    transition_guards.2.2.2.1 1500000 sessionCompleted,
    transition_guards.2.2.2.2 1500000 sessionCompleted⟩

/-- Counterexample to claim C4: cancelling the running Scenario A session
(5 accumulated pause minutes, no stored end time) at minute 20 sets
`endTime` and `CANCELLED` but stores no `actualDuration`, although the
claim requires it to be computed (here `round(20) - 5 = 15`). -/
theorem cancel_no_duration_counterexample :
    cancelFocusSession 1200000 (some sessionAfterCycle) =
      .ok ⟨.CANCELLED, some 0, some 1200000, none, some 5, none⟩ ∧
    msToMinutes (1200000 - 0) - (5 : ℤ) = 15 := by
  refine ⟨by decide, by norm_num [msToMinutes, jround_eq]⟩

/-- Amended claim C4: `cancel` succeeds from any state without a status
check, sets `endTime` to the cancel timestamp and `status = CANCELLED`, but
does NOT compute `actualDuration`: the stored `actualDuration` (and all
other fields) are left unchanged, because the duration derivation only runs
for a `COMPLETED` payload. -/
theorem cancel_bookkeeping (now : ℤ) (s : FocusSession) :
    cancelFocusSession now (some s) =
      .ok { s with status := .CANCELLED, endTime := some now } := by
  simp only [cancelFocusSession, updateFocusSession]
  rw [if_neg]
  · rfl
  · simp

/-- `updateHabitProgress` leaves the entry rows themselves untouched. -/
theorem updateHabitProgress_habitSessions (now : ℤ) (hb : FocusHabit) :
    (updateHabitProgress now hb).habitSessions = hb.habitSessions := rfl

/-- The stored current streak counts the leading completed entries of the
date-descending sort. -/
theorem updateHabitProgress_currentStreak (now : ℤ) (hb : FocusHabit) :
    (updateHabitProgress now hb).currentStreak =
      ((sortByDateDesc hb.habitSessions).takeWhile (·.completed)).length := rfl

/-- The stored longest streak is the max of the previous one and the new
current streak. -/
theorem updateHabitProgress_longestStreak (now : ℤ) (hb : FocusHabit) :
    (updateHabitProgress now hb).longestStreak =
      max hb.longestStreak
        (((sortByDateDesc hb.habitSessions).takeWhile (·.completed)).length) := rfl

/-- Every successful `logHabitSession` returns the habit row produced by
`updateHabitProgress`, on a habit that kept its previous longest streak. -/
theorem logHabitSession_shape {now : ℤ} {u : String} {habit? : Option FocusHabit}
    {d : HabitLogData} {h1 : FocusHabit}
    (h : logHabitSession now u habit? d = .ok h1) :
    ∃ hb, h1 = updateHabitProgress now hb ∧
      hb.longestStreak = (habit?.map (·.longestStreak)).getD hb.longestStreak := by
  match habit? with
  | some habit =>
    simp only [logHabitSession] at h
    cases hfind : habit.habitSessions.find? (fun s => decide (s.date = d.date)) with
    | some e =>
      simp only [hfind] at h
      injection h with h1eq
      exact ⟨_, h1eq.symm, rfl⟩
    | none =>
      simp only [hfind] at h
      injection h with h1eq
      exact ⟨_, h1eq.symm, rfl⟩
  | none =>
    simp only [logHabitSession] at h
    exact Except.noConfusion h

/-- A list on which `f` fixes every element is fixed by `map f`. -/
theorem map_eq_self_of_mem {α : Type} {f : α → α} :
    ∀ {l : List α}, (∀ x ∈ l, f x = x) → l.map f = l := by
  intro l h
  induction l with
  | nil => rfl
  | cons a t ih =>
    simp only [List.map_cons]
    rw [h a (by simp), ih (fun x hx => h x (by simp [hx]))]

/-- After a successful `logHabitSession`, the habit has an entry for the
logged day, and every entry for that day carries exactly the logged
values. -/
theorem logHabitSession_entry {now : ℤ} {u : String} {habit : FocusHabit}
    {d : HabitLogData} {h1 : FocusHabit}
    (h : logHabitSession now u (some habit) d = .ok h1) :
    (∃ e ∈ h1.habitSessions, e.date = d.date) ∧
    ∀ s ∈ h1.habitSessions, s.date = d.date →
      s.completed = d.completed ∧ s.effectiveness = d.effectiveness ∧
      s.notes = d.notes ∧ s.completedSessions = d.completedSessions := by
  simp only [logHabitSession] at h
  cases hfind : habit.habitSessions.find? (fun s => decide (s.date = d.date)) with
  | some e =>
    simp only [hfind] at h
    injection h with h1eq
    subst h1eq
    rw [updateHabitProgress_habitSessions]
    have hed : e.date = d.date := by
      have := List.find?_some hfind
      simpa using this
    constructor
    · refine ⟨_, List.mem_map_of_mem _ (List.mem_of_find?_eq_some hfind), ?_⟩
      rw [if_pos hed]
      exact hed
    · intro s hs hsd
      obtain ⟨t, _, rfl⟩ := List.mem_map.mp hs
      by_cases htd : t.date = d.date
      · rw [if_pos htd]
        exact ⟨rfl, rfl, rfl, rfl⟩
      · rw [if_neg htd] at hsd ⊢
        exact absurd hsd htd
  | none =>
    simp only [hfind] at h
    injection h with h1eq
    subst h1eq
    rw [updateHabitProgress_habitSessions]
    have hnone := List.find?_eq_none.mp hfind
    constructor
    · exact ⟨_, List.mem_append_right _ (List.mem_singleton_self _), rfl⟩
    · intro s hs hsd
      rcases List.mem_append.mp hs with hmem | hmem
      · exact absurd (by simpa using hnone s hmem) (by simpa using hsd)
      · rw [List.mem_singleton.mp hmem]
        exact ⟨rfl, rfl, rfl, rfl⟩

/-- When the habit already stores an entry for the logged day whose values
all equal the logged ones, `logHabitSession` is a plain recomputation: it
rewrites that entry in place with the values it already has. -/
theorem logHabitSession_stable {now : ℤ} {u : String} {habit : FocusHabit}
    {d : HabitLogData}
    (hA : ∃ e ∈ habit.habitSessions, e.date = d.date)
    (hB : ∀ s ∈ habit.habitSessions, s.date = d.date →
      s.completed = d.completed ∧ s.effectiveness = d.effectiveness ∧
      s.notes = d.notes ∧ s.completedSessions = d.completedSessions) :
    logHabitSession now u (some habit) d = .ok (updateHabitProgress now habit) := by
  obtain ⟨e, he, hed⟩ := hA
  have hsome : (habit.habitSessions.find? (fun s => decide (s.date = d.date))).isSome :=
    List.find?_isSome.mpr ⟨e, he, by simp [hed]⟩
  obtain ⟨x, hx⟩ := Option.isSome_iff_exists.mp hsome
  simp only [logHabitSession, hx]
  congr 1
  have hmap : habit.habitSessions.map (fun s =>
      if s.date = d.date then
        { s with
          completed := d.completed
          effectiveness := d.effectiveness
          notes := d.notes
          completedSessions := d.completedSessions }
      else s) = habit.habitSessions := by
    refine map_eq_self_of_mem (fun s hs => ?_)
    by_cases hsd : s.date = d.date
    · obtain ⟨c1, c2, c3, c4⟩ := hB s hs hsd
      rw [if_pos hsd, ← c1, ← c2, ← c3, ← c4]
    · rw [if_neg hsd]
  rw [hmap]

/-- Counterexample to claim C5: logging completed days 0 and 2 — with day 1
missing — stores `currentStreak = 2`: the calendar gap does not break the
streak, while the claim's day-by-day scan (the spec-side
`specCurrentStreak`) stops at the gap and yields 1. -/
theorem streak_gap_counterexample :
    logHabitSession 2 "alice" (some habitOneDay) logGapDay = .ok habitAfterGap ∧
    habitAfterGap.currentStreak = 2 ∧
    specCurrentStreak (sortByDateDesc habitAfterGap.habitSessions) = 1 ∧
    habitAfterGap.currentStreak ≠
      (specCurrentStreak (sortByDateDesc habitAfterGap.habitSessions) : ℤ) := by
  refine ⟨by decide, by decide, by decide, by decide⟩

/-- Amended claim C5: after every successful `logEntry` call, the stored
`currentStreak` equals the number of leading `completed = true` entries of
the habit's entries sorted by date descending, with NO calendar-day
condition: gaps between entry dates never break the streak (in particular a
habit whose entries are all completed has `currentStreak` equal to its total
number of entries, however the dates are spread); only an explicit
`completed = false` entry (or running out of entries) ends the count. -/
theorem current_streak_ignores_gaps
    (now : ℤ) (u : String) (habit? : Option FocusHabit) (d : HabitLogData)
    (h1 : FocusHabit) (h : logHabitSession now u habit? d = .ok h1) :
    h1.currentStreak =
      ((sortByDateDesc h1.habitSessions).takeWhile (·.completed)).length ∧
    ((∀ s ∈ h1.habitSessions, s.completed) →
      h1.currentStreak = h1.habitSessions.length) := by
  obtain ⟨hb, rfl, -⟩ := logHabitSession_shape h
  rw [updateHabitProgress_currentStreak, updateHabitProgress_habitSessions]
  refine ⟨rfl, fun hall => ?_⟩
  have hsort : ∀ s ∈ sortByDateDesc hb.habitSessions, s.completed := by
    intro s hs
    exact hall s ((List.mem_insertionSort _).mp hs)
  rw [List.takeWhile_eq_self_iff.mpr hsort]
  simp [sortByDateDesc]

/-- Witness for the amended C5 at the gap habit: the streak formula holds
and, all entries being completed, the streak equals the entry count 2
despite the missing day 1. -/
theorem current_streak_ignores_gaps_witness :
    habitAfterGap.currentStreak =
      ((sortByDateDesc habitAfterGap.habitSessions).takeWhile (·.completed)).length ∧
    ((∀ s ∈ habitAfterGap.habitSessions, s.completed) →
      habitAfterGap.currentStreak = habitAfterGap.habitSessions.length) :=
  current_streak_ignores_gaps 2 "alice" (some habitOneDay) logGapDay
    habitAfterGap (by decide)

/-- Claim C6: after every successful `logEntry` call the stored longest
streak dominates the stored current streak, since the code stores
`longestStreak = max(longestStreak, currentStreak)`. -/
theorem longest_streak_ge_current
    (now : ℤ) (u : String) (habit? : Option FocusHabit) (d : HabitLogData)
    (h1 : FocusHabit) (h : logHabitSession now u habit? d = .ok h1) :
    h1.currentStreak ≤ h1.longestStreak := by
  obtain ⟨hb, rfl, -⟩ := logHabitSession_shape h
  rw [updateHabitProgress_currentStreak, updateHabitProgress_longestStreak]
  exact le_max_right _ _

/-- Witness for C6 at the gap habit. -/
theorem longest_streak_ge_current_witness :
    habitAfterGap.currentStreak ≤ habitAfterGap.longestStreak :=
  longest_streak_ge_current 2 "alice" (some habitOneDay) logGapDay
    habitAfterGap (by decide)

/-- Claim C7: logging the same `(date, completed)` data twice equals logging
it once: the second call finds the entry for that day, rewrites it in place
with the values it already carries (no duplicate row: the entry count is
unchanged), and recomputes the same `currentStreak` and `longestStreak`. -/
theorem log_entry_idempotent
    (now : ℤ) (u : String) (habit : FocusHabit) (d : HabitLogData)
    (h1 : FocusHabit) (h : logHabitSession now u (some habit) d = .ok h1) :
    logHabitSession now u (some h1) d = .ok (updateHabitProgress now h1) ∧
    (updateHabitProgress now h1).currentStreak = h1.currentStreak ∧
    (updateHabitProgress now h1).longestStreak = h1.longestStreak ∧
    (updateHabitProgress now h1).habitSessions.length = h1.habitSessions.length := by
  obtain ⟨hA, hB⟩ := logHabitSession_entry h
  refine ⟨logHabitSession_stable hA hB, ?_, ?_, ?_⟩
  · obtain ⟨hb, rfl, -⟩ := logHabitSession_shape h
    rw [updateHabitProgress_currentStreak, updateHabitProgress_currentStreak,
      updateHabitProgress_habitSessions]
  · obtain ⟨hb, rfl, -⟩ := logHabitSession_shape h
    rw [updateHabitProgress_longestStreak, updateHabitProgress_longestStreak,
      updateHabitProgress_habitSessions, max_assoc, max_self]
  · rw [updateHabitProgress_habitSessions]

/-- Witness for C7: relogging day 2 of the gap habit changes nothing. -/
theorem log_entry_idempotent_witness :
    logHabitSession 2 "alice" (some habitAfterGap) logGapDay =
      .ok (updateHabitProgress 2 habitAfterGap) ∧
    (updateHabitProgress 2 habitAfterGap).currentStreak = habitAfterGap.currentStreak ∧
    (updateHabitProgress 2 habitAfterGap).longestStreak = habitAfterGap.longestStreak ∧
    (updateHabitProgress 2 habitAfterGap).habitSessions.length =
      habitAfterGap.habitSessions.length :=
  log_entry_idempotent 2 "alice" habitOneDay logGapDay habitAfterGap (by decide)

/-- Counterexample to claim C10: a caller whose user id differs from the
habit owner's does NOT get a not-found failure — the call succeeds, creates
the entry (stamped with the caller's id) and updates the streak columns of
`alice`'s habit. -/
theorem ownership_counterexample :
    logHabitSession 2 "bob" (some habitOneDay) logGapDay = .ok habitAfterGapBob ∧
    habitOneDay.userId = "alice" ∧
    "bob" ≠ "alice" ∧
    (∃ s ∈ habitAfterGapBob.habitSessions, s.userId = "bob") ∧
    habitAfterGapBob.currentStreak ≠ habitOneDay.currentStreak := by
  refine ⟨by decide, rfl, by decide, ⟨⟨2, true, none, none, 1, 1, "bob"⟩, by decide, rfl⟩,
    by decide⟩

/-- Amended claim C10: `logEntry` never compares the caller with the habit's
owner: for every caller it succeeds whenever the habit id exists (creating
or updating the entry and the streak statistics), and it fails with the
not-found error exactly when the habit id is unknown. -/
theorem log_entry_ignores_ownership :
    (∀ (now : ℤ) (caller : String) (habit : FocusHabit) (d : HabitLogData),
      ∃ h', logHabitSession now caller (some habit) d = .ok h') ∧
    (∀ (now : ℤ) (caller : String) (d : HabitLogData),
      logHabitSession now caller none d = .error ⟨404, "Focus habit not found"⟩) := by
  constructor
  · intro now caller habit d
    simp only [logHabitSession]
    cases hfind : habit.habitSessions.find? (fun s => decide (s.date = d.date)) with
    | some e => exact ⟨_, rfl⟩
    | none => exact ⟨_, rfl⟩
  · intro now caller d
    rfl

/-- Centering identity for list sums: summing `(f - c) * (g - d)` expands
into the four accumulated sums. -/
theorem sum_map_centered {α : Type} (l : List α) (f g : α → ℚ) (c d : ℚ) :
    (l.map (fun a => (f a - c) * (g a - d))).sum =
      (l.map (fun a => f a * g a)).sum - c * (l.map g).sum -
        d * (l.map f).sum + (l.length : ℚ) * (c * d) := by
  induction l with
  | nil => simp
  | cons a t ih =>
    simp only [List.map_cons, List.sum_cons, List.length_cons, ih]
    push_cast
    ring

/-- Dividing numerator and denominator by the same nonzero factor leaves a
quotient unchanged. -/
theorem div_div_same_cancel (a b n : ℚ) (hn : n ≠ 0) : a / n / (b / n) = a / b := by
  rcases eq_or_ne b 0 with rfl | hb
  · simp
  · field_simp

/-- The mean-deviation form of the regression quotient equals the
accumulated-sums form. -/
theorem slope_field_identity (n Sx Sy Sxy Sxx : ℚ) (hn : n ≠ 0) :
    (Sxy - Sx / n * Sy - Sy / n * Sx + n * (Sx / n * (Sy / n))) /
      (Sxx - Sx / n * Sx - Sx / n * Sx + n * (Sx / n * (Sx / n))) =
      (n * Sxy - Sx * Sy) / (n * Sxx - Sx * Sx) := by
  have h1 : Sxy - Sx / n * Sy - Sy / n * Sx + n * (Sx / n * (Sy / n)) =
      (n * Sxy - Sx * Sy) / n := by
    field_simp
    ring
  have h2 : Sxx - Sx / n * Sx - Sx / n * Sx + n * (Sx / n * (Sx / n)) =
      (n * Sxx - Sx * Sx) / n := by
    field_simp
    ring
  rw [h1, h2, div_div_same_cancel _ _ _ hn]

/-- Summing the scores over the enumerated list is `sumY`. -/
theorem sum_enum_snd_score (points : List PerformancePoint) :
    (points.enum.map (fun p => p.2.score)).sum = sumY points := by
  rw [sumY]
  have h : points.enum.map (fun p => p.2.score) =
      (points.enum.map Prod.snd).map (·.score) := by
    rw [List.map_map]
    rfl
  rw [h, List.enum_map_snd]

/-- The slope accumulated by `analyzeTrend` is exactly the
ordinary-least-squares slope of score over sample index. -/
theorem slopeOf_eq_olsSlope (points : List PerformancePoint) (h : points ≠ []) :
    slopeOf points = olsSlope points := by
  have hn : (points.length : ℚ) ≠ 0 :=
    Nat.cast_ne_zero.mpr (fun h0 => h (List.length_eq_zero.mp h0))
  simp only [slopeOf, olsSlope, pow_two]
  rw [sum_map_centered points.enum (fun p => (p.1 : ℚ)) (fun p => p.2.score),
    sum_map_centered points.enum (fun p => (p.1 : ℚ)) (fun p => (p.1 : ℚ)),
    sum_enum_snd_score, List.enum_length]
  rw [show (points.enum.map (fun p => (p.1 : ℚ))).sum = sumX points from rfl,
    show (points.enum.map (fun p => (p.1 : ℚ) * p.2.score)).sum = sumXY points from rfl,
    show (points.enum.map (fun p => (p.1 : ℚ) * (p.1 : ℚ))).sum = sumXX points from rfl]
  exact (slope_field_identity _ _ _ _ _ hn).symm

/-- Claim C8: for at least two points the reported trend is classified from
`improvementRate = olsSlope * 7` — stable when strictly within one half of
zero, improving when positive, declining otherwise — and the reported rate
is that product rounded to two decimals; Scenario C's five daily scores
50..70 give an improving trend with a rate of 35 points per week. -/
theorem trend_from_ols (points : List PerformancePoint) (h2 : 2 ≤ points.length) :
    ((analyzeTrend points).improvementRate =
        (jround (olsSlope points * 7 * 100) : ℚ) / 100 ∧
      (analyzeTrend points).trend =
        (if |olsSlope points * 7| < 1/2 then Trend.stable
          else if olsSlope points * 7 > 0 then Trend.improving
          else Trend.declining)) ∧
    analyzeTrend scenarioCPoints = ⟨.improving, 35, 95⟩ := by
  have hlt : ¬ points.length < 2 := not_lt.mpr h2
  have hne : points ≠ [] := by
    intro h0
    rw [h0] at h2
    simp at h2
  refine ⟨⟨?_, ?_⟩, ?_⟩
  · simp only [analyzeTrend, if_neg hlt]
    rw [slopeOf_eq_olsSlope points hne]
  · simp only [analyzeTrend, if_neg hlt]
    rw [slopeOf_eq_olsSlope points hne]
  · norm_num [analyzeTrend, slopeOf, calculateConfidence, sumX, sumY, sumXY, sumXX,
      scenarioCPoints, jround_eq, List.enum, List.enumFrom]

/-- Witness for C8 at the Scenario C points. -/
theorem trend_from_ols_witness :
    ((analyzeTrend scenarioCPoints).improvementRate =
        (jround (olsSlope scenarioCPoints * 7 * 100) : ℚ) / 100 ∧
      (analyzeTrend scenarioCPoints).trend =
        (if |olsSlope scenarioCPoints * 7| < 1/2 then Trend.stable
          else if olsSlope scenarioCPoints * 7 > 0 then Trend.improving
          else Trend.declining)) ∧
    analyzeTrend scenarioCPoints = ⟨.improving, 35, 95⟩ :=
  trend_from_ols scenarioCPoints (by decide)

/-- Rounding can only keep a rational below an integer bound. -/
theorem jround_le_of_le {q : ℚ} {z : ℤ} (h : q ≤ (z : ℚ)) : jround q ≤ z := by
  rw [jround_eq]
  calc ⌊q + 1/2⌋ ≤ ⌊(z : ℚ) + 1/2⌋ := Int.floor_le_floor (by linarith)
  _ = z := by
      rw [add_comm, Int.floor_add_int]
      norm_num

/-- Rounding can only keep a rational above an integer bound. -/
theorem le_jround_of_le {q : ℚ} {z : ℤ} (h : (z : ℚ) ≤ q) : z ≤ jround q := by
  rw [jround_eq]
  calc z = ⌊(z : ℚ) + 1/2⌋ := by
        rw [add_comm, Int.floor_add_int]
        norm_num
  _ ≤ ⌊q + 1/2⌋ := Int.floor_le_floor (by linarith)

/-- The raw confidence percentage always lands in `[30, 95]`. -/
theorem calculateConfidence_bounds (points : List PerformancePoint) (slope : ℚ) :
    30 ≤ calculateConfidence points slope ∧ calculateConfidence points slope ≤ 95 := by
  rw [calculateConfidence]
  split
  · norm_num
  · exact ⟨le_max_left _ _, max_le (by norm_num) (min_le_left _ _)⟩

/-- Claim C9: with fewer than 3 points `calculateConfidence` is the fixed
30; it always lies in `[30, 95]`; the confidence reported by `analyzeTrend`
lies in `[0, 95]` in general (0 for fewer than 2 points) and in `[30, 95]`
for at least 3 points; and the projected performance is always in
`[0, 100]`. -/
theorem confidence_and_projection_bounds :
    (∀ (points : List PerformancePoint) (slope : ℚ), points.length < 3 →
      calculateConfidence points slope = 30) ∧
    (∀ (points : List PerformancePoint) (slope : ℚ),
      30 ≤ calculateConfidence points slope ∧ calculateConfidence points slope ≤ 95) ∧
    (∀ points : List PerformancePoint,
      0 ≤ (analyzeTrend points).confidence ∧ (analyzeTrend points).confidence ≤ 95) ∧
    (∀ points : List PerformancePoint, 3 ≤ points.length →
      30 ≤ (analyzeTrend points).confidence) ∧
    (∀ (points : List PerformancePoint) (ta : TrendAnalysis),
      0 ≤ calculateProjectedPerformance points ta ∧
        calculateProjectedPerformance points ta ≤ 100) := by
  refine ⟨?_, calculateConfidence_bounds, ?_, ?_, ?_⟩
  · intro points slope h3
    rw [calculateConfidence, if_pos h3]
  · intro points
    rw [analyzeTrend]
    split
    · exact ⟨le_refl 0, by norm_num⟩
    · obtain ⟨hlo, hhi⟩ := calculateConfidence_bounds points (slopeOf points)
      have h1 : (30 : ℤ) ≤ jround (calculateConfidence points (slopeOf points)) :=
        le_jround_of_le (by push_cast; linarith)
      have h2 : jround (calculateConfidence points (slopeOf points)) ≤ 95 :=
        jround_le_of_le (by push_cast; linarith)
      exact ⟨by linarith, h2⟩
  · intro points h3
    rw [analyzeTrend]
    split
    · omega
    · obtain ⟨hlo, hhi⟩ := calculateConfidence_bounds points (slopeOf points)
      have h1 : (30 : ℤ) ≤ jround (calculateConfidence points (slopeOf points)) :=
        le_jround_of_le (by push_cast; linarith)
      exact h1
  · intro points ta
    rw [calculateProjectedPerformance]
    split
    · norm_num
    · exact ⟨le_max_left _ _, max_le (by norm_num) (min_le_left _ _)⟩

/-- Witness for C9, discharging the two hypotheses on concrete inputs: the
empty sample gets the fixed confidence 30, and the 5-point Scenario C sample
reports a confidence of at least 30. -/
theorem confidence_and_projection_bounds_witness :
    calculateConfidence [] 0 = 30 ∧
    30 ≤ (analyzeTrend scenarioCPoints).confidence :=
  ⟨confidence_and_projection_bounds.1 [] 0 (by decide),
    confidence_and_projection_bounds.2.2.2.1 scenarioCPoints (by decide)⟩

end StudentToolkit
